import Mathlib

/-!
Shallow embedding of the blinds invoice calculator (`app.py`).

Arithmetic is modelled over `ℚ` (the Python code computes with floats on
decimal inputs; all formulas are field operations, so the rational model is
the idealised arithmetic the spec's "within floating-point tolerance"
clauses refer to).  Python dicts become association lists with
first-match lookup, and the interpolated keys (`f"{name}_price"`,
`f"{name}_profit_ratio"`, `f"{name}_cost"`) are kept as string
concatenations.
-/

namespace InvoiceMaker

/-- A Python dict with string keys: an association list, looked up by first match. -/
abbrev Dict (β : Type) := List (String × β)

/-- `d.get(k, v)` — dict lookup with a default value. -/
def dgetD {β : Type} (d : Dict β) (k : String) (v : β) : β :=
  (d.lookup k).getD v

/-- Embedding of the `while remaining_width > 40` loop of
`calculate_blind_costs` (`app.py` lines 102-107): emit `40.0` while the
remaining width exceeds 40, then the remainder if it is positive.  The
`fuel` argument bounds the number of iterations; the caller supplies
`⌈width⌉.toNat`, which is shown sufficient in `splitWhile_spec`. -/
def splitWhile : Nat → ℚ → List ℚ
  | 0, _ => []
  | fuel + 1, remaining_width =>
    if 40 < remaining_width then 40 :: splitWhile fuel (remaining_width - 40)
    else if 0 < remaining_width then [remaining_width] else []

/-- `pieces_to_ship` from `calculate_blind_costs` (`app.py` lines 100-109):
the list of physical piece widths a blind ships as. -/
def pieces_to_ship (width : ℚ) (resize_width : Bool) : List ℚ :=
  if resize_width = true ∧ 40 < width then splitWhile (⌈width⌉.toNat) width
  else [width]

/-- Shipping part of `calculate_blind_costs` (`app.py` lines 113-118):
zero when the shipping rate is not positive, otherwise the sum over the
pieces of the per-piece cost times the (undivided) blind count. -/
def shipping_cost_calc (pieces : List ℚ) (total_blinds : Nat) (shipping_rate : ℚ) : ℚ :=
  if 0 < shipping_rate then
    (pieces.map fun piece_width =>
      (((((piece_width + 2) * 2.5) * 13 * 13) / 4850) * 10) / shipping_rate
        * (total_blinds : ℚ)).sum
  else 0

/-- The derived fields `calculate_blind_costs` attaches to a blind
(`results` dict plus the per-product `{name}_cost` entries). -/
structure CalcResults where
  total_sqft : ℚ
  shipping_cost : ℚ
  actual_total_pieces : Nat
  number_of_splits : Nat
  product_costs : Dict ℚ
deriving DecidableEq, Repr

/-- `calculate_blind_costs` (`app.py` lines 97-140). -/
def calculate_blind_costs (width height : ℚ) (total_blinds : Nat) (_mount : String)
    (pricing : Dict ℚ) (shipping_rate : ℚ) (selected_products : Dict Bool)
    (resize_width : Bool) : CalcResults :=
  let total_sqft_final := (width * height / 144) * (total_blinds : ℚ)
  let pieces := pieces_to_ship width resize_width
  let number_of_splits := pieces.length
  let product_costs : Dict ℚ :=
    selected_products.map fun pr =>
      let name := pr.1
      let is_selected := dgetD selected_products name false
      (name ++ "_cost",
        if is_selected then
          let price := dgetD pricing (name ++ "_price") 0
          let pratio := dgetD pricing (name ++ "_profit_ratio") 1
          if 0 < pratio then total_sqft_final * (price / pratio) else 0
        else 0)
  { total_sqft := total_sqft_final
    shipping_cost := shipping_cost_calc pieces total_blinds shipping_rate
    actual_total_pieces := number_of_splits * total_blinds
    number_of_splits := number_of_splits
    product_costs := product_costs }

/-! ### Data model: stored line items, motor add-on -/

/-- The stored input fields of one line item ("blind") as created by
`add_blind_form` (`app.py` lines 575-580). -/
structure Blind where
  id : Nat
  description : String
  width : ℚ
  height : ℚ
  total_blinds : Nat
  mount : String
  shipping_rate : ℚ
  resize_width : Bool
  selected_products : Dict Bool
  pricing : Dict ℚ
deriving DecidableEq, Repr

/-- One entry of `st.session_state.blinds_data`: the input fields together
with the derived cost fields stored alongside them. -/
structure BlindRecord where
  blind : Blind
  results : CalcResults
deriving DecidableEq, Repr

/-- The motor add-on settings (`motor_price`, `motor_quantity`,
`motor_shipping_price` in the session state). -/
structure Motor where
  price : ℚ
  quantity : Nat
  shipping_price : ℚ
deriving DecidableEq, Repr

/-- Recompute one record's derived fields from its stored inputs, as the
loop body of `recalculate_all_blinds` does (`app.py` lines 146-156). -/
def recalc_record (b : BlindRecord) : BlindRecord :=
  { b with results := (calculate_blind_costs b.blind.width b.blind.height
      b.blind.total_blinds b.blind.mount b.blind.pricing b.blind.shipping_rate
      b.blind.selected_products b.blind.resize_width) }

/-- `recalculate_all_blinds` (`app.py` lines 143-157). -/
def recalculate_all_blinds (blinds_data : List BlindRecord) : List BlindRecord :=
  blinds_data.map recalc_record

/-- In-place dict assignment `d[k] = v`: replaces the value of an existing
key, otherwise appends the new binding. -/
def dset {β : Type} (d : Dict β) (k : String) (v : β) : Dict β :=
  if d.any fun kv => kv.1 == k then
    d.map fun kv => if kv.1 == k then (k, v) else kv
  else d ++ [(k, v)]

/-- Body of the inner loop of `bulk_update_ratios` (`app.py` lines 169-173):
write the new ratio into the blind's own pricing dict when the blind
selected the product. -/
def update_blind_ratio (product_name : String) (new_ratio : ℚ) (b : BlindRecord) :
    BlindRecord :=
  if dgetD b.blind.selected_products product_name false then
    { b with blind := { b.blind with
        pricing := dset b.blind.pricing (product_name ++ "_profit_ratio") new_ratio } }
  else b

/-- One iteration of the outer loop of `bulk_update_ratios` (`app.py`
lines 162-173): look up the `universal_ratio_{product}` session value and,
when present, rewrite that product's ratio in every relevant blind. -/
def bulk_update_step (session_ratio : String → Option ℚ)
    (blinds_data : List BlindRecord) (product_name : String) : List BlindRecord :=
  match session_ratio product_name with
  | none => blinds_data
  | some new_ratio => blinds_data.map (update_blind_ratio product_name new_ratio)

/-- `bulk_update_ratios` (`app.py` lines 160-177): update all relevant
blinds for each active product, then recalculate everything. -/
def bulk_update_ratios (active_products : List String)
    (session_ratio : String → Option ℚ) (blinds_data : List BlindRecord) :
    List BlindRecord :=
  recalculate_all_blinds (active_products.foldl (bulk_update_step session_ratio) blinds_data)

/-! ### Collection aggregation (`main`, `app.py` lines 744-754) -/

/-- `sub_totals`: per product, the sum of that product's stored cost over
all blinds (`app.py` line 744). -/
def sub_totals (available_products : List String) (blinds_data : List BlindRecord) :
    Dict ℚ :=
  available_products.map fun p =>
    (p, (blinds_data.map fun b => dgetD b.results.product_costs (p ++ "_cost") 0).sum)

/-- `shipping_totals`: per product, the sum of the shipping cost of the
blinds that selected that product (`app.py` line 745). -/
def shipping_totals (available_products : List String) (blinds_data : List BlindRecord) :
    Dict ℚ :=
  available_products.map fun p =>
    (p, ((blinds_data.filter fun b => dgetD b.blind.selected_products p false).map
          fun b => b.results.shipping_cost).sum)

/-- `total_motor_cost = motor_quantity * (motor_price + motor_shipping_price)`
(`app.py` line 747). -/
def total_motor_cost (motor : Motor) : ℚ :=
  (motor.quantity : ℚ) * (motor.price + motor.shipping_price)

/-- `overall_sub_total = sum(sub_totals.values())` (`app.py` line 752). -/
def overall_sub_total (available_products : List String)
    (blinds_data : List BlindRecord) : ℚ :=
  ((sub_totals available_products blinds_data).map Prod.snd).sum

/-- `overall_shipping_total` (`app.py` line 753). -/
def overall_shipping_total (blinds_data : List BlindRecord) : ℚ :=
  (blinds_data.map fun b => b.results.shipping_cost).sum

/-- `bill_total = overall_sub_total + overall_shipping_total + total_motor_cost`
(`app.py` line 754). -/
def bill_total (available_products : List String) (blinds_data : List BlindRecord)
    (motor : Motor) : ℚ :=
  overall_sub_total available_products blinds_data
    + overall_shipping_total blinds_data + total_motor_cost motor

/-! ### Excel export: values of the emitted formulas
(`generate_excel_report`, `app.py` lines 361-493)

Each `excel_*_value` function is the value a standard spreadsheet engine
computes for the corresponding emitted formula, given the literal cells the
report writes (width in `C`, height in `D`, undivided quantity in `E`, total
pieces in `F`; price, ratio and shipping rate baked in as formula
literals). -/

/-- Value of the `Total Sq Ft` formula
`=IFERROR(((C*D)/144)*E, 0)` (`app.py` line 406); the division by the
constant 144 never errors. -/
def excel_sqft_value (b : BlindRecord) : ℚ :=
  ((b.blind.width * b.blind.height) / 144) * (b.blind.total_blinds : ℚ)

/-- Value of a product-cost cell (`app.py` lines 412-421): the literal `0`
when the product is not selected, otherwise the formula
`=IFERROR(IF(ratio>0, I*(price/ratio), 0), 0)` with price and ratio baked in
from the blind's pricing dict, falling back to the session pricing. -/
def excel_product_cost_value (session_pricing : Dict ℚ) (b : BlindRecord)
    (p : String) : ℚ :=
  if dgetD b.blind.selected_products p false then
    let price := dgetD b.blind.pricing (p ++ "_price")
      (dgetD session_pricing (p ++ "_price") 0)
    let pratio := dgetD b.blind.pricing (p ++ "_profit_ratio")
      (dgetD session_pricing (p ++ "_profit_ratio") 1)
    if 0 < pratio then excel_sqft_value b * (price / pratio) else 0
  else 0

/-- Value of the `Shipping Cost` formula
`=IF(rate>0, ((((((C+2)*2.5)*13*13)/4850)*10)/rate)*F, 0)` (`app.py`
line 426): it references the full width cell `C` and the stored total piece
count cell `F`. -/
def excel_shipping_value (b : BlindRecord) : ℚ :=
  if 0 < b.blind.shipping_rate then
    ((((((b.blind.width + 2) * 2.5) * 13 * 13) / 4850) * 10) / b.blind.shipping_rate)
      * (b.results.actual_total_pieces : ℚ)
  else 0

/-- Value of the `Line Total` formula `=SUM(product cells, shipping cell)`
(`app.py` line 430). -/
def excel_line_total_value (session_pricing : Dict ℚ) (active_products : List String)
    (b : BlindRecord) : ℚ :=
  (active_products.map (excel_product_cost_value session_pricing b)).sum
    + excel_shipping_value b

/-- Value of the motor row's total formula
`=((motor_price + motor_shipping)*qty)` (`app.py` line 450). -/
def excel_motor_total_value (motor : Motor) : ℚ :=
  (motor.price + motor.shipping_price) * (motor.quantity : ℚ)

/-- Stable sort of the blinds by id, as `sorted(blinds_data, key=lambda x: x['id'])`
(`app.py` line 391). -/
def sortById (blinds_data : List BlindRecord) : List BlindRecord :=
  blinds_data.insertionSort fun a b => a.blind.id ≤ b.blind.id

/-- Value of the `Bill Total:` summary formula: the sum of the `Line Total`
column over every data row — all blind rows plus the motor row when present
(`app.py` lines 475-476). -/
def excel_bill_total_value (session_pricing : Dict ℚ) (active_products : List String)
    (blinds_data : List BlindRecord) (motor : Motor) : ℚ :=
  ((sortById blinds_data).map (excel_line_total_value session_pricing active_products)).sum
    + (if 0 < motor.quantity then excel_motor_total_value motor else 0)

/-! ### Excel export: worksheet row layout (`app.py` lines 376-476) -/

/-- The row-number bookkeeping of `generate_excel_report`: which worksheet
row each blind occupies, where the motor row is, and the row ranges the
summary `SUM` formulas cover (first and last row, inclusive). -/
structure ExcelLayout where
  blindRows : List (Nat × BlindRecord)
  motorRow : Option Nat
  lastDataRow : Nat
  lastBlindRow : Nat
  summaryStartRow : Nat
  shippingSumRows : Nat × Nat
  productSumRows : Nat × Nat
  billSumRows : Nat × Nat

/-- Assign consecutive row numbers starting at `row_num` to a list of
records, as the write loop does (`row_num += 1` per blind, `app.py`
lines 390-433). -/
def assignRows : Nat → List BlindRecord → List (Nat × BlindRecord)
  | _, [] => []
  | row_num, b :: rest => (row_num, b) :: assignRows (row_num + 1) rest

/-- The row layout produced by `generate_excel_report` (`app.py`: the data
table starts at row 1 with the header; blinds are written from row 2 in id
order; a motor row follows when `motor_quantity > 0`; `last_data_row`,
`last_blind_row` and `summary_start_row` are computed on lines 455-457, and
the summary `SUM` ranges on lines 461-476). -/
def excel_layout (blinds_data : List BlindRecord) (motor_quantity : Nat) :
    ExcelLayout :=
  let table_start_row := 1
  let row_after_blinds := table_start_row + 1 + blinds_data.length
  let row_after_motor := if 0 < motor_quantity then row_after_blinds + 1 else row_after_blinds
  let last_data_row := row_after_motor - 1
  let last_blind_row := last_data_row - (if 0 < motor_quantity then 1 else 0)
  { blindRows := assignRows (table_start_row + 1) (sortById blinds_data)
    motorRow := if 0 < motor_quantity then some row_after_blinds else none
    lastDataRow := last_data_row
    lastBlindRow := last_blind_row
    summaryStartRow := row_after_motor + 1
    shippingSumRows := (table_start_row + 1, last_data_row)
    productSumRows := (table_start_row + 1, last_blind_row)
    billSumRows := (table_start_row + 1, last_data_row) }

/-! ### Add/edit form submission (`add_blind_form`, `app.py` lines 497-587) -/

/-- The raw text fields of the price settings block: one
`(name, price_str, ratio_str)` triple per selected product. -/
abbrev PricingInputs := List (String × String × String)

/-- The parsing loop of the submit handler (`app.py` lines 554-558): build
`custom_pricing` from the raw strings; `none` models the `ValueError` path
(`float()` failing on any of the texts). -/
def parse_custom_pricing (parse : String → Option ℚ) :
    PricingInputs → Option (Dict ℚ)
  | [] => some []
  | (name, price_str, ratio_str) :: rest => do
    let p ← parse price_str
    let r ← parse ratio_str
    let tail ← parse_custom_pricing parse rest
    some ((name ++ "_price", p) :: (name ++ "_profit_ratio", r) :: tail)

/-- `base.copy()` followed by `.update(upd)`: lookups hit `upd` first, then
`base` (only lookups are ever performed on pricing dicts). -/
def dict_update {β : Type} (base upd : Dict β) : Dict β :=
  upd ++ base

/-- `max(b['id'] for b in blinds_data) + 1 if blinds_data else 1`
(`app.py` line 570). -/
def next_blind_id (blinds_data : List BlindRecord) : Nat :=
  match blinds_data with
  | [] => 1
  | _ => ((blinds_data.map fun b => b.blind.id).foldl max 0) + 1

/-- The validated (already numeric) form fields of the add/edit form. -/
structure SubmitForm where
  description : String
  width : ℚ
  height : ℚ
  total_blinds : Nat
  mount : String
  shipping_rate : ℚ
  resize_width : Bool
  selected_names : List String
  pricing_inputs : PricingInputs

/-- The `if submitted:` handler of `add_blind_form` (`app.py` lines
553-587), as a function from the current collection to the new collection
plus an error flag.  On a parse failure the handler shows the error and
calls `st.stop()` before anything is created or removed, so the collection
is returned unchanged with the flag set. -/
def add_blind_submit (parse : String → Option ℚ) (available_products : List String)
    (session_pricing : Dict ℚ) (editing_blind_id : Option Nat) (form : SubmitForm)
    (blinds_data : List BlindRecord) : List BlindRecord × Bool :=
  match parse_custom_pricing parse form.pricing_inputs with
  | none => (blinds_data, true)
  | some custom_pricing =>
    let selected_products : Dict Bool :=
      available_products.map fun name => (name, form.selected_names.contains name)
    let final_pricing := dict_update session_pricing custom_pricing
    let costs := calculate_blind_costs form.width form.height form.total_blinds
      form.mount final_pricing form.shipping_rate selected_products form.resize_width
    let blind_id := editing_blind_id.getD (next_blind_id blinds_data)
    let remaining := if editing_blind_id.isSome then
        blinds_data.filter fun b => b.blind.id != blind_id
      else blinds_data
    let new_blind : Blind :=
      { id := blind_id, description := form.description, width := form.width,
        height := form.height, total_blinds := form.total_blinds,
        mount := form.mount, shipping_rate := form.shipping_rate,
        resize_width := form.resize_width, selected_products := selected_products,
        pricing := final_pricing }
    (remaining ++ [{ blind := new_blind, results := costs }], false)

/-- A single split blind used to exhibit the native/spreadsheet divergence:
width 85 (pieces `[40, 40, 5]`), height 10, one blind, shipping rate 0.9,
no products selected. -/
def c1_blind : Blind :=
  { id := 1, description := "", width := 85, height := 10, total_blinds := 1,
    mount := "Inside Mt", shipping_rate := 0.9, resize_width := true,
    selected_products := [], pricing := [] }

/-- The stored record for `c1_blind`, with its derived fields computed by
`calculate_blind_costs` exactly as the app stores them. -/
def c1_record : BlindRecord :=
  { blind := c1_blind
    results := calculate_blind_costs 85 10 1 "Inside Mt" [] 0.9 [] true }

/-- A consistent stored record that selects the product `"zebra"`. -/
def c6_selected_blind : Blind :=
  { id := 1, description := "", width := 36, height := 95.5,
    total_blinds := 2, mount := "Inside Mt", shipping_rate := 0.9,
    resize_width := false, selected_products := [("zebra", true)],
    pricing := [("zebra_price", 2.6), ("zebra_profit_ratio", 0.3)] }

/-- The record for `c6_selected_blind`, with consistent derived fields. -/
def c6_selected : BlindRecord :=
  { blind := c6_selected_blind
    results := calculate_blind_costs 36 95.5 2 "Inside Mt"
      [("zebra_price", 2.6), ("zebra_profit_ratio", 0.3)] 0.9
      [("zebra", true)] false }

/-- A consistent stored record that does not select `"zebra"`. -/
def c6_other_blind : Blind :=
  { id := 2, description := "", width := 30, height := 50,
    total_blinds := 1, mount := "Outside Mt", shipping_rate := 0.9,
    resize_width := false, selected_products := [("zebra", false)],
    pricing := [("zebra_price", 2.6), ("zebra_profit_ratio", 0.3)] }

/-- The record for `c6_other_blind`, with consistent derived fields. -/
def c6_other : BlindRecord :=
  { blind := c6_other_blind
    results := calculate_blind_costs 30 50 1 "Outside Mt"
      [("zebra_price", 2.6), ("zebra_profit_ratio", 0.3)] 0.9
      [("zebra", false)] false }

/-- A submitted form whose price text `"abc"` is not numeric. -/
def c9_form : SubmitForm :=
  { description := "", width := 36, height := 95.5, total_blinds := 2,
    mount := "Inside Mt", shipping_rate := 0.9, resize_width := true,
    selected_names := ["sunscreen"],
    pricing_inputs := [("sunscreen", "abc", "0.3")] }

instance : IsTotal BlindRecord fun a b => a.blind.id ≤ b.blind.id :=
  ⟨fun a b => Nat.le_total a.blind.id b.blind.id⟩

instance : IsTrans BlindRecord fun a b => a.blind.id ≤ b.blind.id :=
  ⟨fun _ _ _ hab hbc => Nat.le_trans hab hbc⟩

/-! ### Structure of the splitter loop -/

/-- With enough fuel, the split loop on a width above 40 produces a block of
full-width `40` pieces followed by one remainder piece in `(0, 40]`. -/
theorem splitWhile_spec : ∀ (fuel : Nat) (w : ℚ), 40 < w → w ≤ 40 * fuel →
    ∃ (k : Nat) (r : ℚ), splitWhile fuel w = List.replicate k 40 ++ [r] ∧
      w = 40 * k + r ∧ 0 < r ∧ r ≤ 40 ∧ 1 ≤ k := by
  intro fuel
  induction fuel with
  | zero =>
    intro w hw hfuel
    exfalso
    push_cast at hfuel
    linarith
  | succ fuel ih =>
    intro w hw hfuel
    have hunf : splitWhile (fuel + 1) w =
        if 40 < w then 40 :: splitWhile fuel (w - 40)
        else if 0 < w then [w] else [] := rfl
    rw [hunf, if_pos hw]
    by_cases h40 : 40 < w - 40
    · obtain ⟨k, r, heq, hsum, hr0, hr40, hk⟩ := ih (w - 40) h40 (by push_cast at hfuel ⊢; linarith)
      refine ⟨k + 1, r, ?_, ?_, hr0, hr40, le_add_self.trans_eq rfl⟩
      · rw [heq, List.replicate_succ]
        rfl
      · push_cast at hsum ⊢
        linarith
    · have hfuel1 : 1 ≤ fuel := by
        by_contra hf
        have : fuel = 0 := by omega
        subst this
        push_cast at hfuel
        linarith
      obtain ⟨fuel', rfl⟩ : ∃ f, fuel = f + 1 := ⟨fuel - 1, by omega⟩
      have hunf' : splitWhile (fuel' + 1) (w - 40) =
          if 40 < w - 40 then 40 :: splitWhile fuel' (w - 40 - 40)
          else if 0 < w - 40 then [w - 40] else [] := rfl
      rw [hunf', if_neg h40, if_pos (by linarith : (0:ℚ) < w - 40)]
      exact ⟨1, w - 40, rfl, by push_cast; ring, by linarith, by linarith, le_refl 1⟩

/-- The fuel `⌈w⌉.toNat` passed by `pieces_to_ship` is sufficient. -/
theorem ceil_fuel_sufficient (w : ℚ) (hw : 40 < w) : w ≤ 40 * (⌈w⌉.toNat : ℚ) := by
  have h1 : w ≤ (⌈w⌉ : ℚ) := Int.le_ceil w
  have h0 : (0:ℤ) ≤ ⌈w⌉ := by
    have := Int.le_ceil w
    exact_mod_cast Int.ceil_nonneg (by linarith : (0:ℚ) ≤ w)
  have h2 : ((⌈w⌉.toNat : ℤ) : ℚ) = ((⌈w⌉ : ℤ) : ℚ) := by
    rw [Int.toNat_of_nonneg h0]
  have h3 : w ≤ (⌈w⌉.toNat : ℚ) := by
    push_cast at h2 ⊢
    linarith
  nlinarith [h3, h1]

/-- The split of a width above 40 is uniquely determined: `k` full pieces of
40 and a final remainder `r ∈ (0, 40]` with `w = 40k + r`. -/
theorem splitWhile_eval (w : ℚ) (k : Nat) (r : ℚ) (hw : 40 < w)
    (hsum : w = 40 * k + r) (hr0 : 0 < r) (hr40 : r ≤ 40) (hk : 1 ≤ k) :
    splitWhile (⌈w⌉.toNat) w = List.replicate k 40 ++ [r] := by
  obtain ⟨k', r', heq, hsum', hr0', hr40', hk'⟩ :=
    splitWhile_spec (⌈w⌉.toNat) w hw (ceil_fuel_sufficient w hw)
  have hkk : k = k' := by
    rcases Nat.lt_trichotomy k k' with h | h | h
    · exfalso
      have hc : ((k:ℚ) + 1) ≤ (k' : ℚ) := by exact_mod_cast Nat.succ_le_of_lt h
      linarith
    · exact h
    · exfalso
      have hc : ((k':ℚ) + 1) ≤ (k : ℚ) := by exact_mod_cast Nat.succ_le_of_lt h
      linarith
  subst hkk
  have hrr : r = r' := by linarith
  subst hrr
  exact heq

/-- Evaluation form of `pieces_to_ship` for widths above 40 with resizing. -/
theorem pieces_to_ship_eval (w : ℚ) (k : Nat) (r : ℚ) (hw : 40 < w)
    (hsum : w = 40 * k + r) (hr0 : 0 < r) (hr40 : r ≤ 40) (hk : 1 ≤ k) :
    pieces_to_ship w true = List.replicate k 40 ++ [r] := by
  rw [pieces_to_ship, if_pos ⟨rfl, hw⟩]
  exact splitWhile_eval w k r hw hsum hr0 hr40 hk

/-- `pieces_to_ship` is the single piece `[width]` when resizing is off or
the width is at most 40. -/
theorem pieces_to_ship_single (width : ℚ) (resize_width : Bool)
    (h : resize_width = false ∨ width ≤ 40) :
    pieces_to_ship width resize_width = [width] := by
  rw [pieces_to_ship, if_neg]
  rintro ⟨hb, hww⟩
  rcases h with h | h
  · rw [h] at hb; exact Bool.noConfusion hb
  · linarith

/-! ### Lookup of the generated `{name}_cost` entries -/

/-- Appending a fixed suffix to a string is injective. -/
theorem string_append_cancel {a b : String} (s : String) (h : a ++ s = b ++ s) :
    a = b := by
  apply String.ext
  have hd := congrArg String.data h
  simp only [String.data_append] at hd
  exact List.append_cancel_right hd

/-- Looking up `p ++ "_cost"` in the dict built by mapping
`pr ↦ (pr.1 ++ "_cost", f pr.1)` over a dict whose keys include `p`
returns `f p`. -/
theorem lookup_cost_map (sel : Dict Bool) (f : String → ℚ) (p : String)
    (hmem : p ∈ sel.map Prod.fst) :
    (sel.map fun pr => (pr.1 ++ "_cost", f pr.1)).lookup (p ++ "_cost")
      = some (f p) := by
  induction sel with
  | nil => simp at hmem
  | cons hd tl ih =>
    simp only [List.map_cons, List.lookup]
    by_cases hpq : p = hd.1
    · subst hpq
      simp
    · have hbeq : (p ++ "_cost" == hd.1 ++ "_cost") = false := by
        apply beq_eq_false_iff_ne.mpr
        intro hcontra
        exact hpq (string_append_cancel "_cost" hcontra)
      rw [hbeq]
      apply ih
      simp only [List.map_cons, List.mem_cons] at hmem
      rcases hmem with h | h
      · exact absurd h hpq
      · exact h

/-! ### C2: the product cost formula -/

/-- C2: `calculate_blind_costs` computes `totalSquareFeet` as
`(width * height / 144) * quantity` with the undivided blind count, and the
stored cost of a product `p` in the selected-product map is `0` when `p` is
not selected, `totalSquareFeet * (price / ratio)` when selected with a
positive ratio, and `0` when selected with `ratio ≤ 0`; in particular the
cost for width 36, height 95.5, quantity 2, price 2.1, ratio 0.3, selected,
is 334.25. -/
theorem calc_product_cost_correct (width height : ℚ) (total_blinds : Nat)
    (mount : String) (pricing : Dict ℚ) (shipping_rate : ℚ)
    (selected_products : Dict Bool) (resize_width : Bool) (p : String)
    (price rq : ℚ)
    (hmem : p ∈ selected_products.map Prod.fst)
    (hp : pricing.lookup (p ++ "_price") = some price)
    (hr : pricing.lookup (p ++ "_profit_ratio") = some rq) :
    (calculate_blind_costs width height total_blinds mount pricing shipping_rate
        selected_products resize_width).total_sqft
      = (width * height / 144) * (total_blinds : ℚ) ∧
    dgetD (calculate_blind_costs width height total_blinds mount pricing
        shipping_rate selected_products resize_width).product_costs
        (p ++ "_cost") 0
      = (if dgetD selected_products p false = true then
          (if 0 < rq then
            ((width * height / 144) * (total_blinds : ℚ)) * (price / rq)
           else 0)
         else 0) ∧
    dgetD (calculate_blind_costs 36 95.5 2 "Inside Mt"
        [("x_price", 2.1), ("x_profit_ratio", 0.3)] 0.9 [("x", true)]
        true).product_costs "x_cost" 0
      = 334.25 := by
  refine ⟨rfl, ?_, ?_⟩
  · have hlk := lookup_cost_map selected_products
      (fun name => if dgetD selected_products name false = true then
          (if 0 < dgetD pricing (name ++ "_profit_ratio") 1 then
            ((width * height / 144) * (total_blinds : ℚ))
              * (dgetD pricing (name ++ "_price") 0
                  / dgetD pricing (name ++ "_profit_ratio") 1)
           else 0)
        else 0) p hmem
    show ((calculate_blind_costs width height total_blinds mount pricing
        shipping_rate selected_products resize_width).product_costs.lookup
        (p ++ "_cost")).getD 0 = _
    rw [show (calculate_blind_costs width height total_blinds mount pricing
        shipping_rate selected_products resize_width).product_costs
      = selected_products.map fun pr =>
          (pr.1 ++ "_cost",
            if dgetD selected_products pr.1 false = true then
              (if 0 < dgetD pricing (pr.1 ++ "_profit_ratio") 1 then
                ((width * height / 144) * (total_blinds : ℚ))
                  * (dgetD pricing (pr.1 ++ "_price") 0
                      / dgetD pricing (pr.1 ++ "_profit_ratio") 1)
               else 0)
            else 0) from rfl]
    rw [hlk]
    simp only [Option.getD_some]
    rw [show dgetD pricing (p ++ "_price") 0 = price by rw [dgetD, hp]; rfl]
    rw [show dgetD pricing (p ++ "_profit_ratio") 1 = rq by rw [dgetD, hr]; rfl]
  · simp [calculate_blind_costs, dgetD, List.lookup]
    norm_num

/-! ### C3: the shipping cost formula -/

/-- C3: for any piece-width list, quantity ≥ 1 and shipping rate, the
shipping cost equals the quantity times the sum over the pieces of
`(((pieceWidth + 2) * 2.5 * 169) / 4850 * 10) / shippingRate` when the rate
is positive, and is exactly 0 when the rate is ≤ 0 (the guarded branch). -/
theorem shipping_cost_formula (pieces : List ℚ) (total_blinds : Nat)
    (shipping_rate : ℚ) (hq : 1 ≤ total_blinds) :
    (0 < shipping_rate →
      shipping_cost_calc pieces total_blinds shipping_rate
        = (total_blinds : ℚ) *
          (pieces.map fun piece_width =>
            (((((piece_width + 2) * 2.5) * 169) / 4850) * 10) / shipping_rate).sum) ∧
    (shipping_rate ≤ 0 →
      shipping_cost_calc pieces total_blinds shipping_rate = 0) := by
  constructor
  · intro hrate
    rw [shipping_cost_calc, if_pos hrate]
    induction pieces with
    | nil => simp
    | cons hd tl ih =>
      simp only [List.map_cons, List.sum_cons, ih]
      ring
  · intro hrate
    rw [shipping_cost_calc, if_neg (by linarith)]

/-! ### C4 and C10: the width splitter -/

/-- C4: the splitter yields `[width]` when resizing is off or width ≤ 40;
otherwise it emits full pieces of exactly 40 followed by a final remainder
in `(0, 40]`; `number_of_splits` is the piece-list length and
`actual_total_pieces = number_of_splits * quantity`; and the concrete cases
85→[40,40,5], 80→[40,40], 85 (no resize)→[85], 40→[40] hold. -/
theorem splitter_correct (width height : ℚ) (total_blinds : Nat) (mount : String)
    (pricing : Dict ℚ) (shipping_rate : ℚ) (selected_products : Dict Bool)
    (resize_width : Bool) (hw : 0 < width) :
    (resize_width = false ∨ width ≤ 40 →
      pieces_to_ship width resize_width = [width]) ∧
    (resize_width = true → 40 < width →
      ∃ (k : Nat) (r : ℚ),
        pieces_to_ship width resize_width = List.replicate k 40 ++ [r] ∧
        1 ≤ k ∧ 0 < r ∧ r ≤ 40 ∧ width = 40 * k + r) ∧
    (calculate_blind_costs width height total_blinds mount pricing shipping_rate
        selected_products resize_width).number_of_splits
      = (pieces_to_ship width resize_width).length ∧
    (calculate_blind_costs width height total_blinds mount pricing shipping_rate
        selected_products resize_width).actual_total_pieces
      = (pieces_to_ship width resize_width).length * total_blinds ∧
    pieces_to_ship 85 true = [40, 40, 5] ∧
    pieces_to_ship 80 true = [40, 40] ∧
    pieces_to_ship 85 false = [85] ∧
    pieces_to_ship 40 true = [40] := by
  refine ⟨pieces_to_ship_single width resize_width, ?_, rfl, rfl, ?_, ?_,
    pieces_to_ship_single 85 false (Or.inl rfl),
    pieces_to_ship_single 40 true (by norm_num)⟩
  · intro hb h40
    subst hb
    obtain ⟨k, r, heq, hsum, hr0, hr40, hk⟩ := splitWhile_spec (⌈width⌉.toNat) width
      h40 (ceil_fuel_sufficient width h40)
    rw [pieces_to_ship, if_pos ⟨rfl, h40⟩]
    exact ⟨k, r, heq, hk, hr0, hr40, hsum⟩
  · have := pieces_to_ship_eval 85 2 5 (by norm_num) (by norm_num) (by norm_num)
      (by norm_num) (by norm_num)
    simpa using this
  · have := pieces_to_ship_eval 80 1 40 (by norm_num) (by norm_num) (by norm_num)
      (by norm_num) (by norm_num)
    simpa using this

/-- C10: for width > 40 with resizing on, the pieces sum exactly to the
original width, every piece is strictly positive and at most 40, and every
piece except possibly the last equals exactly 40. -/
theorem splitter_conserves_width (width : ℚ) (hw : 40 < width) :
    (pieces_to_ship width true).sum = width ∧
    (∀ piece ∈ pieces_to_ship width true, 0 < piece ∧ piece ≤ 40) ∧
    (∀ piece ∈ (pieces_to_ship width true).dropLast, piece = 40) := by
  obtain ⟨k, r, heq, hsum, hr0, hr40, hk⟩ := splitWhile_spec (⌈width⌉.toNat) width
    hw (ceil_fuel_sufficient width hw)
  have hps : pieces_to_ship width true = List.replicate k 40 ++ [r] := by
    rw [pieces_to_ship, if_pos ⟨rfl, hw⟩]
    exact heq
  refine ⟨?_, ?_, ?_⟩
  · rw [hps]
    simp [List.sum_replicate, nsmul_eq_mul]
    push_cast at hsum ⊢
    linarith
  · intro piece hpiece
    rw [hps] at hpiece
    simp only [List.mem_append, List.mem_replicate, List.mem_singleton] at hpiece
    rcases hpiece with ⟨-, h⟩ | h
    · subst h; norm_num
    · subst h; exact ⟨hr0, hr40⟩
  · intro piece hpiece
    rw [hps, List.dropLast_concat] at hpiece
    exact (List.eq_of_mem_replicate hpiece)

/-! ### C5: the collection aggregator -/

/-- C5: the aggregator computes
`motorCost = motorQuantity * (motorPrice + motorShippingPrice)`,
`overallSubTotal` as the sum over products of the per-product sub-totals,
`overallShipping` as the sum of each line item's shipping cost counted
exactly once — unchanged under arbitrary reassignment of every line item's
selected-product map — and
`billTotal = overallSubTotal + overallShipping + motorCost`. -/
theorem aggregator_correct (available_products : List String)
    (blinds_data : List BlindRecord) (motor : Motor)
    (reselect : BlindRecord → Dict Bool) :
    total_motor_cost motor
      = (motor.quantity : ℚ) * (motor.price + motor.shipping_price) ∧
    overall_sub_total available_products blinds_data
      = ((sub_totals available_products blinds_data).map Prod.snd).sum ∧
    overall_shipping_total blinds_data
      = (blinds_data.map fun b => b.results.shipping_cost).sum ∧
    overall_shipping_total (blinds_data.map fun b =>
        { b with blind := { b.blind with selected_products := reselect b } })
      = overall_shipping_total blinds_data ∧
    bill_total available_products blinds_data motor
      = overall_sub_total available_products blinds_data
        + overall_shipping_total blinds_data + total_motor_cost motor := by
  refine ⟨rfl, rfl, rfl, ?_, rfl⟩
  rw [overall_shipping_total, overall_shipping_total, List.map_map]
  rfl

/-! ### C7: the concrete shipping example -/

/-- C7 (counterexample): the shipping cost for pieces `[40]`, quantity 2 and
rate 0.9 does not lie in `[78.01, 78.03]` — the spec's example value 78.02
is a miscalculation of its own formula. -/
theorem shipping_example_not_78 :
    ¬(78.01 ≤ shipping_cost_calc [40] 2 0.9 ∧
      shipping_cost_calc [40] 2 0.9 ≤ 78.03) := by
  rw [shipping_cost_calc, if_pos (by norm_num : (0:ℚ) < 0.9)]
  norm_num

/-- C7 (amended): the shipping cost for pieces `[40]`, quantity 2 and rate
0.9 is exactly `2 * (((40+2)*2.5*169)/4850*10)/0.9 = 23660/291 ≈ 81.31`,
within ±0.01 of 81.31. -/
theorem shipping_example_value :
    shipping_cost_calc [40] 2 0.9 = 23660 / 291 ∧
    shipping_cost_calc [40] 2 0.9
      = 2 * ((((40 + 2) * 2.5 * 169) / 4850 * 10) / 0.9) ∧
    81.30 ≤ shipping_cost_calc [40] 2 0.9 ∧
    shipping_cost_calc [40] 2 0.9 ≤ 81.32 := by
  rw [shipping_cost_calc, if_pos (by norm_num : (0:ℚ) < 0.9)]
  norm_num

/-! ### C6: the bulk ratio update -/

/-- Recomputing a freshly recomputed record changes nothing. -/
theorem recalc_record_idem (b : BlindRecord) :
    recalc_record (recalc_record b) = recalc_record b := rfl

/-- C6: for one product name and new ratio (with the session holding that
ratio), the bulk update rewrites exactly the `{product}_profit_ratio` entry
of the pricing override of the line items that selected the product, leaves
every other line item completely unchanged (given the collection's derived
fields were consistent), and returns only fully recomputed records. -/
theorem bulk_update_frame (product_name : String) (new_ratio : ℚ)
    (session_ratio : String → Option ℚ) (blinds_data : List BlindRecord)
    (hsess : session_ratio product_name = some new_ratio)
    (hcons : ∀ b ∈ blinds_data, recalc_record b = b) :
    List.Forall₂ (fun old new =>
        (dgetD old.blind.selected_products product_name false = true →
          new.blind = { old.blind with
            pricing := dset old.blind.pricing (product_name ++ "_profit_ratio")
              new_ratio } ∧
          recalc_record new = new) ∧
        (dgetD old.blind.selected_products product_name false = false →
          new = old))
      blinds_data (bulk_update_ratios [product_name] session_ratio blinds_data) ∧
    ∀ b ∈ bulk_update_ratios [product_name] session_ratio blinds_data,
      recalc_record b = b := by
  have hstep : bulk_update_ratios [product_name] session_ratio blinds_data
      = blinds_data.map fun b =>
          recalc_record (update_blind_ratio product_name new_ratio b) := by
    rw [bulk_update_ratios, List.foldl_cons, List.foldl_nil, bulk_update_step,
      hsess, recalculate_all_blinds, List.map_map]
    rfl
  rw [hstep]
  constructor
  · rw [List.forall₂_map_right_iff]
    rw [List.forall₂_same]
    intro b hb
    constructor
    · intro hsel
      rw [update_blind_ratio, if_pos hsel]
      exact ⟨rfl, recalc_record_idem _⟩
    · intro hsel
      rw [update_blind_ratio, if_neg (by simp [hsel])]
      exact hcons b hb
  · intro b hb
    rw [List.mem_map] at hb
    obtain ⟨a, -, rfl⟩ := hb
    exact recalc_record_idem _

/-! ### C9: atomicity of the add/edit submission on a parse error -/

/-- If any submitted price or ratio text fails to parse, the whole
`custom_pricing` construction fails. -/
theorem parse_custom_pricing_none (parse : String → Option ℚ)
    (inputs : PricingInputs)
    (h : ∃ entry ∈ inputs, parse entry.2.1 = none ∨ parse entry.2.2 = none) :
    parse_custom_pricing parse inputs = none := by
  induction inputs with
  | nil => simp at h
  | cons hd tl ih =>
    obtain ⟨name, price_str, ratio_str⟩ := hd
    obtain ⟨entry, hmem, hfail⟩ := h
    rw [List.mem_cons] at hmem
    rcases hmem with rfl | hmem
    · simp only [parse_custom_pricing]
      rcases hfail with hfail | hfail
      · rw [hfail]; rfl
      · cases parse price_str with
        | none => rfl
        | some _ => simp [hfail]
    · have htl := ih ⟨entry, hmem, hfail⟩
      simp only [parse_custom_pricing]
      cases parse price_str with
      | none => rfl
      | some _ =>
        cases parse ratio_str with
        | none => simp
        | some _ => simp [htl]

/-- C9: when any submitted price or ratio text fails to parse, the submit
handler reports the error and returns the line-item collection exactly as
it was — nothing is created, replaced or removed, and no cost calculation
is reached. -/
theorem add_blind_submit_atomic (parse : String → Option ℚ)
    (available_products : List String) (session_pricing : Dict ℚ)
    (editing_blind_id : Option Nat) (form : SubmitForm)
    (blinds_data : List BlindRecord)
    (h : ∃ entry ∈ form.pricing_inputs,
      parse entry.2.1 = none ∨ parse entry.2.2 = none) :
    add_blind_submit parse available_products session_pricing editing_blind_id
      form blinds_data = (blinds_data, true) := by
  rw [add_blind_submit, parse_custom_pricing_none parse form.pricing_inputs h]

/-! ### C8: the worksheet layout -/

/-- Stripping the row numbers from `assignRows` gives back the list. -/
theorem assignRows_map_snd (row_num : Nat) (l : List BlindRecord) :
    (assignRows row_num l).map Prod.snd = l := by
  induction l generalizing row_num with
  | nil => rfl
  | cons hd tl ih => simp [assignRows, ih]

/-- The rows produced by `assignRows` are exactly the interval
`[row_num, row_num + length)`. -/
theorem assignRows_rows (row_num : Nat) (l : List BlindRecord) (row : Nat) :
    (∃ b, (row, b) ∈ assignRows row_num l)
      ↔ row_num ≤ row ∧ row < row_num + l.length := by
  induction l generalizing row_num with
  | nil => simp [assignRows]
  | cons hd tl ih =>
    simp only [assignRows, List.mem_cons, List.length_cons]
    constructor
    · rintro ⟨b, hb | hb⟩
      · obtain ⟨h1, h2⟩ := Prod.mk.injEq .. ▸ hb
        rw [Prod.ext_iff] at hb
        omega

      · have := (ih (row_num + 1)).mp ⟨b, hb⟩
        omega
    · intro hrange
      by_cases heq : row = row_num
      · exact ⟨hd, Or.inl (by rw [heq])⟩
      · obtain ⟨b, hb⟩ := (ih (row_num + 1)).mpr (by omega)
        exact ⟨b, Or.inr hb⟩

/-- The ids of the sorted blinds are ascending. -/
theorem sortById_sorted (blinds_data : List BlindRecord) :
    ((sortById blinds_data).map fun b => b.blind.id).Sorted (· ≤ ·) := by
  have hs := List.sorted_insertionSort (fun a b => a.blind.id ≤ b.blind.id)
    blinds_data
  exact List.Pairwise.map _ (fun a b hab => hab) hs

/-- C8: in the worksheet layout, the blind rows carry the line items sorted
by id ascending (a permutation of the collection), the motor row exists iff
`motor_quantity > 0` and immediately follows the blind rows, a blank row
separates the data rows from the summary rows, the per-product "only cost"
`SUM` ranges cover exactly the blind rows and exclude the motor row, and
the total-shipping and bill-total `SUM` ranges cover all data rows
including the motor row. -/
theorem excel_layout_correct (blinds_data : List BlindRecord)
    (motor_quantity : Nat) :
    (((excel_layout blinds_data motor_quantity).blindRows.map
        fun rb => rb.2.blind.id).Sorted (· ≤ ·)) ∧
    ((excel_layout blinds_data motor_quantity).blindRows.map Prod.snd).Perm
      blinds_data ∧
    ((excel_layout blinds_data motor_quantity).motorRow
      = if 0 < motor_quantity then some (blinds_data.length + 2) else none) ∧
    (excel_layout blinds_data motor_quantity).summaryStartRow
      = (excel_layout blinds_data motor_quantity).lastDataRow + 2 ∧
    (excel_layout blinds_data motor_quantity).productSumRows
      = (2, (excel_layout blinds_data motor_quantity).lastBlindRow) ∧
    (∀ row : Nat,
      (2 ≤ row ∧ row ≤ (excel_layout blinds_data motor_quantity).lastBlindRow)
        ↔ ∃ b, (row, b) ∈ (excel_layout blinds_data motor_quantity).blindRows) ∧
    (∀ m, (excel_layout blinds_data motor_quantity).motorRow = some m →
      ¬(2 ≤ m ∧ m ≤ (excel_layout blinds_data motor_quantity).lastBlindRow) ∧
      (2 ≤ m ∧ m ≤ (excel_layout blinds_data motor_quantity).lastDataRow)) ∧
    (excel_layout blinds_data motor_quantity).shippingSumRows
      = (2, (excel_layout blinds_data motor_quantity).lastDataRow) ∧
    (excel_layout blinds_data motor_quantity).billSumRows
      = (2, (excel_layout blinds_data motor_quantity).lastDataRow) := by
  have hlen : (sortById blinds_data).length = blinds_data.length :=
    List.length_insertionSort _ _
  refine ⟨?_, ?_, ?_, ?_, ?_, ?_, ?_, ?_, ?_⟩
  · have h1 : (excel_layout blinds_data motor_quantity).blindRows
        = assignRows 2 (sortById blinds_data) := rfl
    rw [h1]
    have h2 : (assignRows 2 (sortById blinds_data)).map (fun rb => rb.2.blind.id)
        = ((assignRows 2 (sortById blinds_data)).map Prod.snd).map
            (fun b => b.blind.id) := by
      rw [List.map_map]; rfl
    rw [h2, assignRows_map_snd]
    exact sortById_sorted blinds_data
  · have h1 : (excel_layout blinds_data motor_quantity).blindRows
        = assignRows 2 (sortById blinds_data) := rfl
    rw [h1, assignRows_map_snd]
    exact List.perm_insertionSort _ _
  · by_cases hm : 0 < motor_quantity <;>
      simp [excel_layout, hm, Nat.add_comm]
  · by_cases hm : 0 < motor_quantity <;> simp [excel_layout, hm] <;> omega
  · by_cases hm : 0 < motor_quantity <;> simp [excel_layout, hm]
  · intro row
    have h1 : (excel_layout blinds_data motor_quantity).blindRows
        = assignRows 2 (sortById blinds_data) := rfl
    have h2 : (excel_layout blinds_data motor_quantity).lastBlindRow
        = blinds_data.length + 1 := by
      by_cases hm : 0 < motor_quantity <;> simp [excel_layout, hm] <;> omega
    rw [h1, h2, assignRows_rows, hlen]
    omega
  · intro m hm
    have hq : 0 < motor_quantity := by
      by_contra hq
      simp [excel_layout, hq] at hm
    have hm2 : m = blinds_data.length + 2 := by
      simp [excel_layout, hq, Nat.add_comm] at hm
      omega
    have h2 : (excel_layout blinds_data motor_quantity).lastBlindRow
        = blinds_data.length + 1 := by simp [excel_layout, hq]; omega
    have h3 : (excel_layout blinds_data motor_quantity).lastDataRow
        = blinds_data.length + 2 := by simp [excel_layout, hq]; omega
    rw [h2, h3, hm2]
    omega
  · by_cases hm : 0 < motor_quantity <;> simp [excel_layout, hm]
  · by_cases hm : 0 < motor_quantity <;> simp [excel_layout, hm]

/-! ### C1: the native totals versus the emitted spreadsheet formulas -/

/-- C1 (code bug evidence): on a single split line item (width 85, one
blind, shipping rate 0.9, no products, no motor), the native `bill_total`
is `76895/873 ≈ 88.08`, while the sum of the evaluated `Line Total`
formulas of the export is `24505/97 ≈ 252.63`: the emitted shipping formula
prices the full width times the piece count instead of each split piece,
so the spreadsheet does not reproduce the native total. -/
theorem excel_roundtrip_fails :
    bill_total [] [c1_record] ⟨0, 0, 0⟩ = 76895 / 873 ∧
    excel_bill_total_value [] [] [c1_record] ⟨0, 0, 0⟩ = 24505 / 97 ∧
    bill_total [] [c1_record] ⟨0, 0, 0⟩
      ≠ excel_bill_total_value [] [] [c1_record] ⟨0, 0, 0⟩ := by
  have hp : pieces_to_ship 85 true = [40, 40, 5] := by
    have := pieces_to_ship_eval 85 2 5 (by norm_num) (by norm_num) (by norm_num)
      (by norm_num) (by norm_num)
    simpa using this
  have hnative : bill_total [] [c1_record] ⟨0, 0, 0⟩ = 76895 / 873 := by
    simp only [bill_total, overall_sub_total, sub_totals, overall_shipping_total,
      total_motor_cost, c1_record, c1_blind, calculate_blind_costs,
      shipping_cost_calc, hp]
    norm_num
  have hexcel : excel_bill_total_value [] [] [c1_record] ⟨0, 0, 0⟩
      = 24505 / 97 := by
    simp [excel_bill_total_value, sortById, excel_line_total_value,
      excel_shipping_value, excel_product_cost_value, excel_sqft_value,
      c1_record, c1_blind, calculate_blind_costs, hp]
    norm_num
  refine ⟨hnative, hexcel, ?_⟩
  rw [hnative, hexcel]
  norm_num

/-! ### Witnesses: the hypothesis-bearing theorems applied at concrete inputs -/

/-- Witness for C2 at width 36, height 95.5, quantity 2, price 2.1,
ratio 0.3, product selected. -/
theorem calc_product_cost_correct_witness :
    dgetD (calculate_blind_costs 36 95.5 2 "Inside Mt"
        [("sunscreen_price", 2.1), ("sunscreen_profit_ratio", 0.3)] 0.9
        [("sunscreen", true)] true).product_costs ("sunscreen" ++ "_cost") 0
      = (if dgetD [("sunscreen", true)] "sunscreen" false = true then
          (if 0 < (0.3 : ℚ) then
            ((36 * 95.5 / 144) * ((2 : Nat) : ℚ)) * (2.1 / 0.3)
           else 0)
         else 0) :=
  (calc_product_cost_correct 36 95.5 2 "Inside Mt"
    [("sunscreen_price", 2.1), ("sunscreen_profit_ratio", 0.3)] 0.9
    [("sunscreen", true)] true "sunscreen" 2.1 0.3 (by simp) rfl rfl).2.1

/-- Witness for C3 at pieces `[40]`, quantity 2, shipping rate 0.9. -/
theorem shipping_cost_formula_witness :
    shipping_cost_calc [40] 2 0.9
      = ((2 : Nat) : ℚ) * (([(40 : ℚ)]).map fun piece_width =>
          (((((piece_width + 2) * 2.5) * 169) / 4850) * 10) / 0.9).sum :=
  (shipping_cost_formula [40] 2 0.9 (by norm_num)).1 (by norm_num)

/-- Witness for C4 at width 85 with resizing. -/
theorem splitter_correct_witness :
    pieces_to_ship 85 true = [40, 40, 5] :=
  (splitter_correct 85 10 1 "Inside Mt" [] 0.9 [] true (by norm_num)).2.2.2.2.1

/-- Witness for C6: updating the `"zebra"` ratio over a two-record
collection rewrites exactly the selecting record and leaves the other
unchanged. -/
theorem bulk_update_frame_witness :
    List.Forall₂ (fun old new =>
        (dgetD old.blind.selected_products "zebra" false = true →
          new.blind = { old.blind with
            pricing := dset old.blind.pricing ("zebra" ++ "_profit_ratio")
              (0.5 : ℚ) } ∧
          recalc_record new = new) ∧
        (dgetD old.blind.selected_products "zebra" false = false → new = old))
      [c6_selected, c6_other]
      (bulk_update_ratios ["zebra"]
        (fun n => if n = "zebra" then some (0.5 : ℚ) else none)
        [c6_selected, c6_other]) :=
  (bulk_update_frame "zebra" 0.5
    (fun n => if n = "zebra" then some (0.5 : ℚ) else none)
    [c6_selected, c6_other] (by simp)
    (by
      intro b hb
      rcases List.mem_cons.mp hb with rfl | hb
      · rfl
      · rcases List.mem_singleton.mp hb with rfl
        rfl)).1

/-- Witness for C9: a non-numeric price text leaves an empty collection
unchanged. -/
theorem add_blind_submit_atomic_witness :
    add_blind_submit (fun _ => none) ["sunscreen"] [] none c9_form []
      = ([], true) :=
  add_blind_submit_atomic (fun _ => none) ["sunscreen"] [] none c9_form []
    ⟨("sunscreen", "abc", "0.3"), by simp [c9_form], Or.inl rfl⟩

/-- Witness for C10 at width 85. -/
theorem splitter_conserves_width_witness :
    (pieces_to_ship 85 true).sum = 85 ∧
    (∀ piece ∈ pieces_to_ship 85 true, 0 < piece ∧ piece ≤ 40) ∧
    (∀ piece ∈ (pieces_to_ship 85 true).dropLast, piece = 40) :=
  splitter_conserves_width 85 (by norm_num)

end InvoiceMaker

